import Mathlib

/-!
Verification of the Monotron serial-interface frame encoder
(`CommandWriter` in `src/lib.rs`).

The encoder is embedded shallowly: the Rust struct becomes a Lean
structure, each method becomes a state-passing function, machine bytes
become `Nat` with explicit `% 256` where the Rust code truncates, and the
fallible buffer index `self.bytes[self.sent - 1]` becomes an
`Option`-returning lookup so that an out-of-bounds read (a Rust panic)
is visible as `none`.
-/

namespace Monotron

/-- FRAME-END delimiter byte, `const END: u8 = 0xC0`. -/
def END : Nat := 0xC0

/-- Escape byte, `const ESC: u8 = 0xDB`. -/
def ESC : Nat := 0xDB

/-- Escaped form of END, `const ESC_END: u8 = 0xDC`. -/
def ESC_END : Nat := 0xDC

/-- Escaped form of ESC, `const ESC_ESC: u8 = 0xDD`. -/
def ESC_ESC : Nat := 0xDD

/-- Ping request command code, `const PING_REQ: u8 = 0x01`. -/
def PING_REQ : Nat := 0x01

/-- Ping confirm command code, `const PING_CFM: u8 = 0x81`. -/
def PING_CFM : Nat := 0x81

/-- The free function `need_escape`: true exactly on END and ESC. -/
def need_escape (byte : Nat) : Bool :=
  byte = END || byte = ESC

/-- The free function `escape`: END maps to ESC_END, ESC to ESC_ESC,
anything else to itself. -/
def escape (byte : Nat) : Nat :=
  if byte = END then ESC_END
  else if byte = ESC then ESC_ESC
  else byte

/-- One reflected bit step of CRC-16/X25 (poly 0x1021 reflected is 0x8408). -/
def crcBitStep (c : Nat) : Nat :=
  if c % 2 = 1 then (c / 2) ^^^ 0x8408 else c / 2

/-- One byte step of the reflected CRC-16/X25: xor the byte into the low
bits, then eight bit steps. -/
def crcByteStep (c b : Nat) : Nat :=
  crcBitStep (crcBitStep (crcBitStep (crcBitStep (crcBitStep (crcBitStep
    (crcBitStep (crcBitStep (c ^^^ b % 256))))))))

/-- CRC-16/X25 (init 0xFFFF, reflected in and out, xorout 0xFFFF), the
algorithm implemented by `crc::crc16::checksum_x25` that
`prep_for_send` calls. -/
def crc16_x25 (data : List Nat) : Nat :=
  (data.foldl crcByteStep 0xFFFF) ^^^ 0xFFFF

/-- The encoder state, `pub struct CommandWriter`. The fixed `[u8; 32]`
buffer becomes a list that is kept at length 32 by every operation. -/
structure CommandWriter where
  bytes : List Nat
  sent : Nat
  count : Nat
  had_escape : Bool
  crc : Nat
deriving DecidableEq, Repr

/-- `CommandWriter::new`: zeroed buffer, all counters zero. -/
def CommandWriter.new : CommandWriter :=
  { bytes := List.replicate 32 0
    sent := 0
    count := 0
    had_escape := false
    crc := 0 }

/-- `CommandWriter::reset`: sets `sent` and `count` to 0, nothing else. -/
def CommandWriter.reset (s : CommandWriter) : CommandWriter :=
  { s with sent := 0, count := 0 }

/-- `CommandWriter::prep_for_send`: sets `sent` to 0 and recomputes the
checksum over `bytes[0..count]`. -/
def CommandWriter.prep_for_send (s : CommandWriter) : CommandWriter :=
  { s with sent := 0, crc := crc16_x25 (s.bytes.take s.count) }

/-- `CommandWriter::send_ping_req`: writes PING_REQ at index 0, sets
`count` to 1, and calls `prep_for_send`. -/
def CommandWriter.send_ping_req (s : CommandWriter) : CommandWriter :=
  CommandWriter.prep_for_send { s with bytes := s.bytes.set 0 PING_REQ, count := 1 }

/-- `CommandWriter::send_ping_cfm`: writes PING_CFM at index 0, sets
`count` to 1, and calls `prep_for_send`. -/
def CommandWriter.send_ping_cfm (s : CommandWriter) : CommandWriter :=
  CommandWriter.prep_for_send { s with bytes := s.bytes.set 0 PING_CFM, count := 1 }

/-- Modelled from the spec: `loadPayload(bytes)` copies the given bytes
into `payload[0..len)` and sets `length = len`, with `len ≤ 32` a caller
obligation; the source repository has no general-purpose load operation
under src/ (only the two ping constructors write the buffer), so this
step of the lifecycle is taken from the spec text. -/
def CommandWriter.loadPayload (s : CommandWriter) (p : List Nat) : CommandWriter :=
  { s with bytes := p ++ s.bytes.drop p.length, count := p.length }

/-- `CommandWriter::escape_and_send`: returns the byte actually emitted
together with the updated state. A byte needing no escape is emitted as
is and advances `sent`; a byte needing escape first emits ESC (setting
`had_escape`, not advancing), then on the next call emits its escaped
form, clears the flag and advances. -/
def CommandWriter.escape_and_send (s : CommandWriter) (to_send : Nat) :
    Nat × CommandWriter :=
  if !need_escape to_send then
    (to_send, { s with sent := s.sent + 1 })
  else if !s.had_escape then
    (ESC, { s with had_escape := true })
  else
    (escape to_send, { s with sent := s.sent + 1, had_escape := false })

/-- `CommandWriter::get_byte`: one pull of the frame state machine. The
outer `Option` models the Rust panic on an out-of-bounds buffer index
(`self.bytes[self.sent - 1]`): `none` means panic, `some (none, s)`
means the drain is exhausted, `some (some b, s2)` means byte `b` was
emitted with new state `s2`. -/
def CommandWriter.get_byte (s : CommandWriter) :
    Option (Option Nat × CommandWriter) :=
  if s.sent = 0 then
    some (some END, { s with sent := s.sent + 1 })
  else if s.sent ≤ s.count then
    match s.bytes[s.sent - 1]? with
    | some to_send =>
      let r := s.escape_and_send to_send
      some (some r.1, r.2)
    | none => none
  else if s.sent = s.count + 1 then
    let r := s.escape_and_send (s.crc / 256 % 256)
    some (some r.1, r.2)
  else if s.sent = s.count + 2 then
    let r := s.escape_and_send (s.crc % 256)
    some (some r.1, r.2)
  else if s.sent = s.count + 3 then
    some (some END, { s with sent := s.sent + 1 })
  else
    some (none, s)

/-- Repeatedly pull bytes, collecting them, stopping at exhaustion, at a
panic, or when the fuel runs out. -/
def drainFuel : Nat → CommandWriter → List Nat
  | 0, _ => []
  | n + 1, s =>
    match s.get_byte with
    | some (some b, s2) => b :: drainFuel n s2
    | some (none, _) => []
    | none => []

/-- Pull until the encoder reports exhaustion: `2 * count + 9` pulls
always suffice (1 start + at most 2 per body byte + 1 end + 1 none). -/
def CommandWriter.drain (s : CommandWriter) : List Nat :=
  drainFuel (2 * s.count + 9) s

/-- Wire encoding of one body byte: an escapable byte becomes the
two-byte sequence ESC, escaped-value; any other byte stands alone. -/
def escByte (b : Nat) : List Nat :=
  if need_escape b then [ESC, escape b] else [b]

/-- Wire encoding of a list of body bytes. -/
def escapedStream : List Nat → List Nat
  | [] => []
  | b :: rest => escByte b ++ escapedStream rest

/-- The body bytes of the frame held by a state: the valid payload
prefix followed by the two checksum bytes, high first. -/
def CommandWriter.body (s : CommandWriter) : List Nat :=
  s.bytes.take s.count ++ [s.crc / 256 % 256, s.crc % 256]

/-- The full wire frame the spec prescribes for a payload: FRAME_END,
the escaped payload and checksum bytes, FRAME_END. -/
def wireFrame (p : List Nat) : List Nat :=
  END :: escapedStream (p ++ [crc16_x25 p / 256 % 256, crc16_x25 p % 256]) ++ [END]

/-- The buffer index `get_byte` reads, when its payload branch is
taken: mirrors the branch structure of `get_byte`, whose only buffer
access is `bytes[sent - 1]` in the `sent ≤ count` branch. -/
def CommandWriter.readIndex (s : CommandWriter) : Option Nat :=
  if s.sent = 0 then none
  else if s.sent ≤ s.count then some (s.sent - 1)
  else none

/-- The bytes a drain starting from state `s` should still produce,
assuming `had_escape` is clear: the whole frame at position 0, the
escaped suffix of the body plus the closing delimiter at positions 1 to
count + 2, just the closing delimiter at count + 3, nothing beyond. -/
def CommandWriter.expectedFrom (s : CommandWriter) : List Nat :=
  if s.sent = 0 then END :: escapedStream s.body ++ [END]
  else if s.sent ≤ s.count + 2 then escapedStream (s.body.drop (s.sent - 1)) ++ [END]
  else if s.sent = s.count + 3 then [END]
  else []

/-- Two encoder states that agree on everything `get_byte` can observe:
the drain position, the length, the escape flag, the checksum, and the
valid prefix of the buffer. -/
def StateSim (s t : CommandWriter) : Prop :=
  s.sent = t.sent ∧ s.count = t.count ∧ s.had_escape = t.had_escape ∧
  s.crc = t.crc ∧ s.bytes.take s.count = t.bytes.take t.count

/-! Step lemmas: one equation for each branch of the state machine. -/

theorem escape_and_send_plain (s : CommandWriter) (b : Nat)
    (h : need_escape b = false) :
    s.escape_and_send b = (b, { s with sent := s.sent + 1 }) := by
  simp [CommandWriter.escape_and_send, h]

theorem escape_and_send_esc1 (s : CommandWriter) (b : Nat)
    (h : need_escape b = true) (he : s.had_escape = false) :
    s.escape_and_send b = (ESC, { s with had_escape := true }) := by
  simp [CommandWriter.escape_and_send, h, he]

theorem escape_and_send_esc2 (s : CommandWriter) (b : Nat)
    (h : need_escape b = true) (he : s.had_escape = true) :
    s.escape_and_send b
      = (escape b, { s with sent := s.sent + 1, had_escape := false }) := by
  simp [CommandWriter.escape_and_send, h, he]

theorem get_byte_start (s : CommandWriter) (h : s.sent = 0) :
    s.get_byte = some (some END, { s with sent := s.sent + 1 }) := by
  simp [CommandWriter.get_byte, h]

theorem get_byte_payload (s : CommandWriter) (h0 : s.sent ≠ 0)
    (h1 : s.sent ≤ s.count) (b : Nat) (hb : s.bytes[s.sent - 1]? = some b) :
    s.get_byte
      = some (some (s.escape_and_send b).1, (s.escape_and_send b).2) := by
  simp [CommandWriter.get_byte, h0, h1, hb]

theorem get_byte_hi (s : CommandWriter) (h : s.sent = s.count + 1) :
    s.get_byte = some (some (s.escape_and_send (s.crc / 256 % 256)).1,
      (s.escape_and_send (s.crc / 256 % 256)).2) := by
  have h0 : ¬ s.sent = 0 := by omega
  have h1 : ¬ s.sent ≤ s.count := by omega
  simp [CommandWriter.get_byte, h0, h1, h]

theorem get_byte_lo (s : CommandWriter) (h : s.sent = s.count + 2) :
    s.get_byte = some (some (s.escape_and_send (s.crc % 256)).1,
      (s.escape_and_send (s.crc % 256)).2) := by
  have h0 : ¬ s.sent = 0 := by omega
  have h1 : ¬ s.sent ≤ s.count := by omega
  have h2 : ¬ s.sent = s.count + 1 := by omega
  simp [CommandWriter.get_byte, h0, h1, h2, h]

theorem get_byte_fin (s : CommandWriter) (h : s.sent = s.count + 3) :
    s.get_byte = some (some END, { s with sent := s.sent + 1 }) := by
  have h0 : ¬ s.sent = 0 := by omega
  have h1 : ¬ s.sent ≤ s.count := by omega
  have h2 : ¬ s.sent = s.count + 1 := by omega
  have h3 : ¬ s.sent = s.count + 2 := by omega
  simp [CommandWriter.get_byte, h0, h1, h2, h3, h]

theorem get_byte_done (s : CommandWriter) (h : s.count + 3 < s.sent) :
    s.get_byte = some (none, s) := by
  have h0 : ¬ s.sent = 0 := by omega
  have h1 : ¬ s.sent ≤ s.count := by omega
  have h2 : ¬ s.sent = s.count + 1 := by omega
  have h3 : ¬ s.sent = s.count + 2 := by omega
  have h4 : ¬ s.sent = s.count + 3 := by omega
  simp [CommandWriter.get_byte, h0, h1, h2, h3, h4]

/-! Facts about the frame body and the escaped stream. -/

theorem CommandWriter.body_length (s : CommandWriter)
    (hlen : s.count ≤ s.bytes.length) : s.body.length = s.count + 2 := by
  simp [CommandWriter.body, List.length_take]
  omega

theorem CommandWriter.body_getElem_payload (s : CommandWriter) (j : Nat)
    (hlen : s.count ≤ s.bytes.length) (hj : j < s.count) :
    s.body[j]? = s.bytes[j]? := by
  have h1 : j < (s.bytes.take s.count).length := by
    rw [List.length_take]; omega
  rw [CommandWriter.body, List.getElem?_append_left h1, List.getElem?_take,
    if_pos hj]

theorem CommandWriter.body_getElem_hi (s : CommandWriter)
    (hlen : s.count ≤ s.bytes.length) :
    s.body[s.count]? = some (s.crc / 256 % 256) := by
  have ht : (s.bytes.take s.count).length = s.count := by
    rw [List.length_take]; omega
  rw [CommandWriter.body, List.getElem?_append_right (by omega), ht]
  simp

theorem CommandWriter.body_getElem_lo (s : CommandWriter)
    (hlen : s.count ≤ s.bytes.length) :
    s.body[s.count + 1]? = some (s.crc % 256) := by
  have ht : (s.bytes.take s.count).length = s.count := by
    rw [List.length_take]; omega
  rw [CommandWriter.body, List.getElem?_append_right (by omega), ht]
  simp

theorem CommandWriter.body_drop_cons (s : CommandWriter) (b : Nat) (j : Nat)
    (hlen : s.count ≤ s.bytes.length) (hj : j < s.count + 2)
    (hb : s.body[j]? = some b) :
    s.body.drop j = b :: s.body.drop (j + 1) := by
  have hlt : j < s.body.length := by rw [s.body_length hlen]; exact hj
  have hsome := List.getElem?_eq_getElem hlt
  rw [hb] at hsome
  have hval : s.body[j] = b := by
    injection hsome.symm
  rw [List.drop_eq_getElem_cons hlt, hval]

theorem CommandWriter.body_drop_all (s : CommandWriter)
    (hlen : s.count ≤ s.bytes.length) :
    s.body.drop (s.count + 2) = [] := by
  apply List.drop_eq_nil_of_le
  rw [s.body_length hlen]

theorem escapedStream_append (l₁ l₂ : List Nat) :
    escapedStream (l₁ ++ l₂) = escapedStream l₁ ++ escapedStream l₂ := by
  induction l₁ with
  | nil => rfl
  | cons b rest ih => simp [escapedStream, ih]

theorem escapedStream_length (l : List Nat) :
    (escapedStream l).length = l.length + l.countP need_escape := by
  induction l with
  | nil => rfl
  | cons b rest ih =>
    rw [escapedStream, List.length_append, ih, List.countP_cons]
    rcases h : need_escape b with _ | _ <;> simp [escByte, h] <;> omega

/-! Evaluation of `expectedFrom` in each region of the cursor. -/

theorem expectedFrom_pos0 (s : CommandWriter) (h : s.sent = 0) :
    s.expectedFrom = END :: escapedStream s.body ++ [END] := by
  rw [CommandWriter.expectedFrom, if_pos h]

theorem expectedFrom_mid (s : CommandWriter) (h0 : ¬ s.sent = 0)
    (h2 : s.sent ≤ s.count + 2) :
    s.expectedFrom = escapedStream (s.body.drop (s.sent - 1)) ++ [END] := by
  rw [CommandWriter.expectedFrom, if_neg h0, if_pos h2]

theorem expectedFrom_fin (s : CommandWriter) (h : s.sent = s.count + 3) :
    s.expectedFrom = [END] := by
  rw [CommandWriter.expectedFrom, if_neg (by omega), if_neg (by omega), if_pos h]

theorem expectedFrom_done (s : CommandWriter) (h : s.count + 3 < s.sent) :
    s.expectedFrom = [] := by
  rw [CommandWriter.expectedFrom, if_neg (by omega), if_neg (by omega),
    if_neg (by omega)]

theorem expectedFrom_next (s : CommandWriter) (hlen : s.count ≤ s.bytes.length)
    (h1 : 1 ≤ s.sent) (h2 : s.sent ≤ s.count + 2) (s2 : CommandWriter)
    (hb : s2.bytes = s.bytes) (hc : s2.count = s.count) (hcrc : s2.crc = s.crc)
    (hs : s2.sent = s.sent + 1) :
    s2.expectedFrom = escapedStream (s.body.drop s.sent) ++ [END] := by
  have hbody : s2.body = s.body := by
    simp [CommandWriter.body, hb, hc, hcrc]
  by_cases h3 : s.sent ≤ s.count + 1
  · rw [expectedFrom_mid s2 (by omega) (by omega), hbody, hs]
    simp
  · have h4 : s.sent = s.count + 2 := by omega
    rw [expectedFrom_fin s2 (by omega), h4, s.body_drop_all hlen]
    rfl

/-- The drain from any position in the body region (payload byte,
checksum high, checksum low) emits the escaped encoding of the byte at
that position and continues; stated with the surrounding strong
induction hypothesis so the three regions share one proof. -/
theorem drainFuel_eq_mid (n : Nat)
    (ih : ∀ m, m < n → ∀ u : CommandWriter, u.had_escape = false →
      u.count ≤ u.bytes.length → 2 * (u.count + 4 - u.sent) + 1 ≤ m →
      drainFuel m u = u.expectedFrom)
    (s : CommandWriter) (hesc : s.had_escape = false)
    (hlen : s.count ≤ s.bytes.length)
    (hfuel : 2 * (s.count + 4 - s.sent) + 1 ≤ n)
    (h1 : 1 ≤ s.sent) (h2 : s.sent ≤ s.count + 2)
    (to_send : Nat)
    (hgb : ∀ u : CommandWriter, u.sent = s.sent → u.count = s.count →
      u.bytes = s.bytes → u.crc = s.crc →
      u.get_byte
        = some (some (u.escape_and_send to_send).1, (u.escape_and_send to_send).2))
    (hbody : s.body[s.sent - 1]? = some to_send) :
    drainFuel n s = s.expectedFrom := by
  have hne0 : ¬ s.sent = 0 := by omega
  have hdrop : s.body.drop (s.sent - 1) = to_send :: s.body.drop s.sent := by
    have h := s.body_drop_cons to_send (s.sent - 1) hlen (by omega) hbody
    have hidx : s.sent - 1 + 1 = s.sent := by omega
    rwa [hidx] at h
  rcases hne : need_escape to_send with _ | _
  · obtain ⟨m, rfl⟩ : ∃ m, n = m + 1 := ⟨n - 1, by omega⟩
    have hstep : drainFuel (m + 1) s
        = to_send :: drainFuel m { s with sent := s.sent + 1 } := by
      have h := hgb s rfl rfl rfl rfl
      rw [escape_and_send_plain s to_send hne] at h
      simp [drainFuel, h]
    rw [hstep, ih m (by omega) { s with sent := s.sent + 1 } hesc hlen
      (by show 2 * (s.count + 4 - (s.sent + 1)) + 1 ≤ m; omega)]
    rw [expectedFrom_next s hlen h1 h2 { s with sent := s.sent + 1 }
        rfl rfl rfl rfl,
      expectedFrom_mid s hne0 h2, hdrop]
    simp [escapedStream, escByte, hne]
  · obtain ⟨m, rfl⟩ : ∃ m, n = m + 2 := ⟨n - 2, by omega⟩
    have hstep1 : drainFuel (m + 2) s
        = ESC :: drainFuel (m + 1) { s with had_escape := true } := by
      have h := hgb s rfl rfl rfl rfl
      rw [escape_and_send_esc1 s to_send hne hesc] at h
      simp [drainFuel, h]
    have hstep2 : drainFuel (m + 1) ({ s with had_escape := true } : CommandWriter)
        = escape to_send
          :: drainFuel m { s with sent := s.sent + 1, had_escape := false } := by
      have h := hgb { s with had_escape := true } rfl rfl rfl rfl
      rw [escape_and_send_esc2 _ to_send hne rfl] at h
      simp [drainFuel, h]
    rw [hstep1, hstep2,
      ih m (by omega) { s with sent := s.sent + 1, had_escape := false } rfl hlen
      (by show 2 * (s.count + 4 - (s.sent + 1)) + 1 ≤ m; omega)]
    rw [expectedFrom_next s hlen h1 h2
        { s with sent := s.sent + 1, had_escape := false } rfl rfl rfl rfl,
      expectedFrom_mid s hne0 h2, hdrop]
    simp [escapedStream, escByte, hne]

/-- Main drain lemma: from any state with a clear escape flag and a
length within the buffer, a sufficiently fueled drain produces exactly
the expected remainder of the frame. -/
theorem drainFuel_expected : ∀ (n : Nat) (s : CommandWriter),
    s.had_escape = false → s.count ≤ s.bytes.length →
    2 * (s.count + 4 - s.sent) + 1 ≤ n →
    drainFuel n s = s.expectedFrom := by
  intro n
  induction n using Nat.strong_induction_on with
  | _ n ih =>
  intro s hesc hlen hfuel
  by_cases h0 : s.sent = 0
  · obtain ⟨m, rfl⟩ : ∃ m, n = m + 1 := ⟨n - 1, by omega⟩
    have hstep : drainFuel (m + 1) s
        = END :: drainFuel m { s with sent := s.sent + 1 } := by
      simp [drainFuel, get_byte_start s h0]
    rw [hstep, ih m (by omega) { s with sent := s.sent + 1 } hesc hlen
      (by show 2 * (s.count + 4 - (s.sent + 1)) + 1 ≤ m; omega)]
    rw [expectedFrom_pos0 s h0,
      expectedFrom_mid { s with sent := s.sent + 1 }
        (show ¬ s.sent + 1 = 0 by omega)
        (show s.sent + 1 ≤ s.count + 2 by omega)]
    show END :: (escapedStream (s.body.drop (s.sent + 1 - 1)) ++ [END])
      = END :: escapedStream s.body ++ [END]
    rw [h0]
    simp
  · by_cases hle : s.sent ≤ s.count
    · obtain ⟨b, hb⟩ : ∃ b, s.bytes[s.sent - 1]? = some b :=
        ⟨_, List.getElem?_eq_getElem (by omega)⟩
      apply drainFuel_eq_mid n ih s hesc hlen hfuel (by omega) (by omega) b
      · intro u hsent hcount hbytes hcrc
        exact get_byte_payload u (by omega) (by omega) b
          (by rw [hbytes, hsent]; exact hb)
      · rw [s.body_getElem_payload (s.sent - 1) hlen (by omega)]
        exact hb
    · by_cases hhi : s.sent = s.count + 1
      · apply drainFuel_eq_mid n ih s hesc hlen hfuel (by omega) (by omega)
          (s.crc / 256 % 256)
        · intro u hsent hcount hbytes hcrc
          rw [← hcrc]
          exact get_byte_hi u (by omega)
        · have hidx : s.sent - 1 = s.count := by omega
          rw [hidx]
          exact s.body_getElem_hi hlen
      · by_cases hlo : s.sent = s.count + 2
        · apply drainFuel_eq_mid n ih s hesc hlen hfuel (by omega) (by omega)
            (s.crc % 256)
          · intro u hsent hcount hbytes hcrc
            rw [← hcrc]
            exact get_byte_lo u (by omega)
          · have hidx : s.sent - 1 = s.count + 1 := by omega
            rw [hidx]
            exact s.body_getElem_lo hlen
        · by_cases hfin : s.sent = s.count + 3
          · obtain ⟨m, rfl⟩ : ∃ m, n = m + 1 := ⟨n - 1, by omega⟩
            have hstep : drainFuel (m + 1) s
                = END :: drainFuel m { s with sent := s.sent + 1 } := by
              simp [drainFuel, get_byte_fin s hfin]
            rw [hstep, ih m (by omega) { s with sent := s.sent + 1 } hesc hlen
              (by show 2 * (s.count + 4 - (s.sent + 1)) + 1 ≤ m; omega)]
            rw [expectedFrom_fin s hfin,
              expectedFrom_done { s with sent := s.sent + 1 }
                (show s.count + 3 < s.sent + 1 by omega)]
          · obtain ⟨m, rfl⟩ : ∃ m, n = m + 1 := ⟨n - 1, by omega⟩
            have hstep : drainFuel (m + 1) s = [] := by
              simp [drainFuel, get_byte_done s (by omega)]
            rw [hstep, expectedFrom_done s (by omega)]

/-! Consequences for a freshly loaded and finalized state. -/

theorem loaded_state_fields (s : CommandWriter) (p : List Nat) :
    (s.loadPayload p).prep_for_send
      = { bytes := p ++ s.bytes.drop p.length, sent := 0, count := p.length,
          had_escape := s.had_escape, crc := crc16_x25 p } := by
  simp [CommandWriter.loadPayload, CommandWriter.prep_for_send, List.take_left]

theorem drain_loaded (s : CommandWriter) (p : List Nat)
    (hesc : s.had_escape = false) :
    ((s.loadPayload p).prep_for_send).drain = wireFrame p := by
  rw [loaded_state_fields s p, hesc, CommandWriter.drain,
    drainFuel_expected _ _ rfl
      (by show p.length ≤ (p ++ s.bytes.drop p.length).length; simp)
      (by show 2 * (p.length + 4 - 0) + 1 ≤ 2 * p.length + 9; omega),
    expectedFrom_pos0 _ rfl]
  show END :: escapedStream
      ((p ++ s.bytes.drop p.length).take p.length
        ++ [crc16_x25 p / 256 % 256, crc16_x25 p % 256]) ++ [END]
    = wireFrame p
  rw [List.take_left, wireFrame]

/-! The frame body never shows a bare FRAME_END after escaping. -/

theorem END_not_mem_escByte (b : Nat) : END ∉ escByte b := by
  rcases h : need_escape b with _ | _
  · have hb : ¬ b = END := by
      intro hbe
      rw [hbe] at h
      simp [need_escape] at h
    simp [escByte, h]
    omega
  · have hb : b = END ∨ b = ESC := by
      simpa [need_escape] using h
    rcases hb with rfl | rfl <;> decide

theorem END_not_mem_escapedStream (l : List Nat) : END ∉ escapedStream l := by
  induction l with
  | nil => simp [escapedStream]
  | cons b rest ih =>
    simp only [escapedStream, List.mem_append]
    intro hc
    rcases hc with hc | hc
    · exact END_not_mem_escByte b hc
    · exact ih hc

/-! Similarity of states: the drain cannot distinguish two states that
agree on cursor, length, flag, checksum and the valid buffer prefix. -/

theorem escape_and_send_sim (s t : CommandWriter) (b : Nat) (h : StateSim s t) :
    (s.escape_and_send b).1 = (t.escape_and_send b).1 ∧
    StateSim (s.escape_and_send b).2 (t.escape_and_send b).2 := by
  obtain ⟨hsent, hcount, hesc, hcrc, htake⟩ := h
  rcases hne : need_escape b with _ | _
  · rw [escape_and_send_plain s b hne, escape_and_send_plain t b hne]
    exact ⟨rfl, by show s.sent + 1 = t.sent + 1; omega, hcount, hesc, hcrc, htake⟩
  · rcases hes : s.had_escape with _ | _
    · have het : t.had_escape = false := by rw [← hesc]; exact hes
      rw [escape_and_send_esc1 s b hne hes, escape_and_send_esc1 t b hne het]
      exact ⟨rfl, hsent, hcount, rfl, hcrc, htake⟩
    · have het : t.had_escape = true := by rw [← hesc]; exact hes
      rw [escape_and_send_esc2 s b hne hes, escape_and_send_esc2 t b hne het]
      exact ⟨rfl, by show s.sent + 1 = t.sent + 1; omega, hcount, rfl, hcrc, htake⟩

theorem get_byte_sim (s t : CommandWriter) (h : StateSim s t) :
    s.get_byte = none ∧ t.get_byte = none ∨
    (∃ s2 t2, s.get_byte = some (none, s2) ∧ t.get_byte = some (none, t2)) ∨
    ∃ b s2 t2, s.get_byte = some (some b, s2) ∧ t.get_byte = some (some b, t2)
      ∧ StateSim s2 t2 := by
  obtain ⟨hsent, hcount, hesc, hcrc, htake⟩ := h
  by_cases h0 : s.sent = 0
  · right; right
    refine ⟨END, _, _, get_byte_start s h0, get_byte_start t (by omega), ?_⟩
    exact ⟨by show s.sent + 1 = t.sent + 1; omega, hcount, hesc, hcrc, htake⟩
  · by_cases hle : s.sent ≤ s.count
    · have hidx : s.bytes[s.sent - 1]? = t.bytes[t.sent - 1]? := by
        have h1 : s.bytes[s.sent - 1]? = (s.bytes.take s.count)[s.sent - 1]? := by
          rw [List.getElem?_take, if_pos (by omega)]
        have h2 : t.bytes[t.sent - 1]? = (t.bytes.take t.count)[t.sent - 1]? := by
          rw [List.getElem?_take, if_pos (by omega)]
        rw [h1, h2, htake, hsent]
      rcases hb : s.bytes[s.sent - 1]? with _ | b
      · left
        have hbt : t.bytes[t.sent - 1]? = none := by rw [← hidx]; exact hb
        constructor
        · simp [CommandWriter.get_byte, h0, hle, hb]
        · simp [CommandWriter.get_byte, show ¬ t.sent = 0 by omega,
            show t.sent ≤ t.count by omega, hbt]
      · right; right
        have hbt : t.bytes[t.sent - 1]? = some b := by rw [← hidx]; exact hb
        obtain ⟨hfst, hsim⟩ :=
          escape_and_send_sim s t b ⟨hsent, hcount, hesc, hcrc, htake⟩
        refine ⟨(s.escape_and_send b).1, (s.escape_and_send b).2,
          (t.escape_and_send b).2, get_byte_payload s h0 hle b hb, ?_, hsim⟩
        rw [hfst]
        exact get_byte_payload t (by omega) (by omega) b hbt
    · by_cases hhi : s.sent = s.count + 1
      · right; right
        obtain ⟨hfst, hsim⟩ := escape_and_send_sim s t (s.crc / 256 % 256)
          ⟨hsent, hcount, hesc, hcrc, htake⟩
        refine ⟨(s.escape_and_send (s.crc / 256 % 256)).1,
          (s.escape_and_send (s.crc / 256 % 256)).2,
          (t.escape_and_send (s.crc / 256 % 256)).2,
          get_byte_hi s hhi, ?_, hsim⟩
        rw [hfst, hcrc]
        exact get_byte_hi t (by omega)
      · by_cases hlo : s.sent = s.count + 2
        · right; right
          obtain ⟨hfst, hsim⟩ := escape_and_send_sim s t (s.crc % 256)
            ⟨hsent, hcount, hesc, hcrc, htake⟩
          refine ⟨(s.escape_and_send (s.crc % 256)).1,
            (s.escape_and_send (s.crc % 256)).2,
            (t.escape_and_send (s.crc % 256)).2,
            get_byte_lo s hlo, ?_, hsim⟩
          rw [hfst, hcrc]
          exact get_byte_lo t (by omega)
        · by_cases hfin : s.sent = s.count + 3
          · right; right
            refine ⟨END, _, _, get_byte_fin s hfin, get_byte_fin t (by omega), ?_⟩
            exact ⟨by show s.sent + 1 = t.sent + 1; omega, hcount, hesc, hcrc, htake⟩
          · right; left
            exact ⟨s, t, get_byte_done s (by omega), get_byte_done t (by omega)⟩

theorem drainFuel_sim (n : Nat) : ∀ s t : CommandWriter, StateSim s t →
    drainFuel n s = drainFuel n t := by
  induction n with
  | zero => intro s t _; rfl
  | succ m ih =>
    intro s t h
    rcases get_byte_sim s t h with ⟨hs, ht⟩ | ⟨s2, t2, hs, ht⟩ | ⟨b, s2, t2, hs, ht, hsim⟩
    · simp [drainFuel, hs, ht]
    · simp [drainFuel, hs, ht]
    · simp only [drainFuel, hs, ht]
      rw [ih s2 t2 hsim]

/-! The claims. -/

/-- C1: for every payload of length at most 32 that has been loaded and
finalized (from an encoder not mid-escape), pulling until exhaustion
yields exactly the wire frame: FRAME_END, each payload byte in order
with byte-stuffing applied, the escaped checksum high byte, the escaped
checksum low byte, FRAME_END. -/
theorem C1_drain_is_wireFrame (s : CommandWriter) (p : List Nat)
    (hesc : s.had_escape = false) (hp : p.length ≤ 32) :
    ((s.loadPayload p).prep_for_send).drain = wireFrame p :=
  drain_loaded s p hesc

theorem C1_drain_is_wireFrame_witness :
    CommandWriter.new.had_escape = false ∧
    ([1, 0xC0, 0xDB] : List Nat).length ≤ 32 ∧
    ((CommandWriter.new.loadPayload [1, 0xC0, 0xDB]).prep_for_send).drain
      = wireFrame [1, 0xC0, 0xDB] :=
  ⟨rfl, by decide,
    C1_drain_is_wireFrame CommandWriter.new [1, 0xC0, 0xDB] rfl (by decide)⟩

/-- C2: after finalize the checksum field is CRC-16/X25 over the loaded
payload only, and the drain emits the checksum high byte first, then the
low byte, each independently escaped, between the escaped payload and
the closing delimiter. -/
theorem C2_checksum_layout (s : CommandWriter) (p : List Nat)
    (hesc : s.had_escape = false) (hp : p.length ≤ 32) :
    ((s.loadPayload p).prep_for_send).crc = crc16_x25 p ∧
    ((s.loadPayload p).prep_for_send).drain
      = END :: (escapedStream p ++ (escByte (crc16_x25 p / 256 % 256)
          ++ (escByte (crc16_x25 p % 256) ++ [END]))) := by
  constructor
  · rw [loaded_state_fields s p]
  · rw [drain_loaded s p hesc, wireFrame, escapedStream_append]
    simp [escapedStream]

theorem C2_checksum_layout_witness :
    CommandWriter.new.had_escape = false ∧
    ([2, 3] : List Nat).length ≤ 32 ∧
    (((CommandWriter.new.loadPayload [2, 3]).prep_for_send).crc = crc16_x25 [2, 3] ∧
     ((CommandWriter.new.loadPayload [2, 3]).prep_for_send).drain
       = END :: (escapedStream [2, 3] ++ (escByte (crc16_x25 [2, 3] / 256 % 256)
           ++ (escByte (crc16_x25 [2, 3] % 256) ++ [END])))) :=
  ⟨rfl, by decide, C2_checksum_layout CommandWriter.new [2, 3] rfl (by decide)⟩

/-- C3: for every nonempty payload of length L at most 32, loaded and
finalized from an encoder not mid-escape, the drain yields exactly
L + 4 + k bytes, where k counts the FRAME_END or ESCAPE valued bytes
among the payload and the two checksum bytes. -/
theorem C3_drain_length (s : CommandWriter) (p : List Nat)
    (hesc : s.had_escape = false) (hp0 : 0 < p.length) (hp : p.length ≤ 32) :
    ((s.loadPayload p).prep_for_send).drain.length
      = p.length + 4
        + (p ++ [crc16_x25 p / 256 % 256, crc16_x25 p % 256]).countP need_escape := by
  rw [drain_loaded s p hesc, wireFrame]
  simp [escapedStream_length]
  omega

theorem C3_drain_length_witness :
    CommandWriter.new.had_escape = false ∧
    (0 : Nat) < ([0xC0, 7] : List Nat).length ∧
    ([0xC0, 7] : List Nat).length ≤ 32 ∧
    ((CommandWriter.new.loadPayload [0xC0, 7]).prep_for_send).drain.length
      = ([0xC0, 7] : List Nat).length + 4
        + (([0xC0, 7] : List Nat)
            ++ [crc16_x25 [0xC0, 7] / 256 % 256, crc16_x25 [0xC0, 7] % 256]).countP
              need_escape :=
  ⟨rfl, by decide, by decide,
    C3_drain_length CommandWriter.new [0xC0, 7] rfl (by decide) (by decide)⟩

/-- C4: the drained frame is FRAME_END, an escaped body, FRAME_END,
where the body never contains a bare 0xC0: a body byte 0xC0 appears as
0xDB 0xDC, a body byte 0xDB as 0xDB 0xDD, and the two bookending
delimiters are emitted unescaped. -/
theorem C4_no_bare_END (s : CommandWriter) (p : List Nat)
    (hesc : s.had_escape = false) (hp : p.length ≤ 32) :
    ((s.loadPayload p).prep_for_send).drain
      = END :: escapedStream
          (p ++ [crc16_x25 p / 256 % 256, crc16_x25 p % 256]) ++ [END] ∧
    END ∉ escapedStream (p ++ [crc16_x25 p / 256 % 256, crc16_x25 p % 256]) ∧
    escByte END = [ESC, ESC_END] ∧ escByte ESC = [ESC, ESC_ESC] :=
  ⟨drain_loaded s p hesc, END_not_mem_escapedStream _, by decide, by decide⟩

theorem C4_no_bare_END_witness :
    CommandWriter.new.had_escape = false ∧
    ([0xC0, 0xDB] : List Nat).length ≤ 32 ∧
    (((CommandWriter.new.loadPayload [0xC0, 0xDB]).prep_for_send).drain
       = END :: escapedStream
           (([0xC0, 0xDB] : List Nat)
             ++ [crc16_x25 [0xC0, 0xDB] / 256 % 256, crc16_x25 [0xC0, 0xDB] % 256])
           ++ [END] ∧
     END ∉ escapedStream
         (([0xC0, 0xDB] : List Nat)
           ++ [crc16_x25 [0xC0, 0xDB] / 256 % 256, crc16_x25 [0xC0, 0xDB] % 256]) ∧
     escByte END = [ESC, ESC_END] ∧ escByte ESC = [ESC, ESC_ESC]) :=
  ⟨rfl, by decide, C4_no_bare_END CommandWriter.new [0xC0, 0xDB] rfl (by decide)⟩

/-- C5: from a fresh encoder, send_ping_req drains to
0xC0 0x01 0xE1 0xF1 0xC0 and send_ping_cfm to 0xC0 0x81 0x65 0xF9 0xC0,
with nothing further even under much more fuel (the next pull is the
exhaustion answer), and each convenience constructor produces exactly
the state of loading its one-byte command code and finalizing. -/
theorem C5_ping_frames :
    CommandWriter.new.send_ping_req.drain = [0xC0, 0x01, 0xE1, 0xF1, 0xC0] ∧
    drainFuel 100 CommandWriter.new.send_ping_req = [0xC0, 0x01, 0xE1, 0xF1, 0xC0] ∧
    CommandWriter.new.send_ping_cfm.drain = [0xC0, 0x81, 0x65, 0xF9, 0xC0] ∧
    drainFuel 100 CommandWriter.new.send_ping_cfm = [0xC0, 0x81, 0x65, 0xF9, 0xC0] ∧
    CommandWriter.new.send_ping_req
      = (CommandWriter.new.loadPayload [PING_REQ]).prep_for_send ∧
    CommandWriter.new.send_ping_cfm
      = (CommandWriter.new.loadPayload [PING_CFM]).prep_for_send := by
  decide

/-- C6 as stated is false: two encoder states that differ only in a
stale escape-pending flag produce different byte sequences after
reset, loadPayload, finalize on the same payload 0xC0 — the mid-escape
state drops the 0xDB prefix of the first escaped byte. -/
theorem C6_counterexample :
    ¬ (((CommandWriter.new.reset.loadPayload [0xC0]).prep_for_send).drain
      = ((({ CommandWriter.new with had_escape := true } : CommandWriter).reset.loadPayload
          [0xC0]).prep_for_send).drain) := by
  decide

/-- C6 amended: reset, loadPayload, finalize, drain yields the same
byte sequence from any two prior states that agree on the
escape-pending flag (which reset does not clear); in particular the
framing depends only on the payload and that flag, not on any other
prior history. -/
theorem C6_reset_deterministic (s1 s2 : CommandWriter) (p : List Nat)
    (he : s1.had_escape = s2.had_escape) (hp : p.length ≤ 32) :
    ((s1.reset.loadPayload p).prep_for_send).drain
      = ((s2.reset.loadPayload p).prep_for_send).drain := by
  rw [loaded_state_fields s1.reset p, loaded_state_fields s2.reset p]
  show drainFuel (2 * p.length + 9) _ = drainFuel (2 * p.length + 9) _
  apply drainFuel_sim
  refine ⟨rfl, rfl, he, rfl, ?_⟩
  show (p ++ s1.bytes.drop p.length).take p.length
    = (p ++ s2.bytes.drop p.length).take p.length
  rw [List.take_left, List.take_left]

theorem C6_reset_deterministic_witness :
    CommandWriter.new.had_escape
        = ({ CommandWriter.new with sent := 3 } : CommandWriter).had_escape ∧
    ([0xC0, 5] : List Nat).length ≤ 32 ∧
    ((CommandWriter.new.reset.loadPayload [0xC0, 5]).prep_for_send).drain
      = ((({ CommandWriter.new with sent := 3 } : CommandWriter).reset.loadPayload
          [0xC0, 5]).prep_for_send).drain :=
  ⟨rfl, by decide,
    C6_reset_deterministic CommandWriter.new { CommandWriter.new with sent := 3 }
      [0xC0, 5] rfl (by decide)⟩

/-- C7: reset sets the drain cursor and the length to 0 and changes no
other field: the buffer and the checksum are untouched, the
escape-pending flag is not cleared, and after reset no buffer index is
read by a pull (the previously loaded bytes are unreachable). -/
theorem C7_reset_frame (s : CommandWriter) :
    s.reset.sent = 0 ∧ s.reset.count = 0 ∧ s.reset.bytes = s.bytes ∧
    s.reset.had_escape = s.had_escape ∧ s.reset.crc = s.crc ∧
    s.reset.readIndex = none := by
  refine ⟨rfl, rfl, rfl, rfl, rfl, ?_⟩
  rfl

/-- C8: once the cursor is past count + 3, every further pull returns
the exhaustion answer with the state unchanged, so any number of
repeated pulls yields no bytes at all. -/
theorem C8_exhausted_idempotent (s : CommandWriter) (h : s.count + 3 < s.sent) :
    s.get_byte = some (none, s) ∧ ∀ n, drainFuel n s = [] := by
  refine ⟨get_byte_done s h, ?_⟩
  intro n
  cases n with
  | zero => rfl
  | succ m => simp [drainFuel, get_byte_done s h]

theorem C8_exhausted_idempotent_witness :
    ({ CommandWriter.new with sent := 4 } : CommandWriter).count + 3
        < ({ CommandWriter.new with sent := 4 } : CommandWriter).sent ∧
    (({ CommandWriter.new with sent := 4 } : CommandWriter).get_byte
        = some (none, { CommandWriter.new with sent := 4 }) ∧
      ∀ n, drainFuel n { CommandWriter.new with sent := 4 } = []) :=
  ⟨by decide, C8_exhausted_idempotent _ (by decide)⟩

/-- C9: in any state with count at most 32 and the fixed 32-byte
buffer, get_byte never reads out of bounds and never panics: the only
buffer read happens at index sent - 1 with 1 ≤ sent ≤ count, so the
index stays below 32, and the pull always returns an answer. -/
theorem C9_no_out_of_bounds (s : CommandWriter) (hb : s.bytes.length = 32)
    (hc : s.count ≤ 32) :
    (∀ i, s.readIndex = some i → i < 32) ∧ (s.get_byte).isSome = true := by
  constructor
  · intro i hi
    rw [CommandWriter.readIndex] at hi
    by_cases h0 : s.sent = 0
    · rw [if_pos h0] at hi
      cases hi
    · rw [if_neg h0] at hi
      by_cases hle : s.sent ≤ s.count
      · rw [if_pos hle] at hi
        injection hi with hi
        omega
      · rw [if_neg hle] at hi
        cases hi
  · by_cases h0 : s.sent = 0
    · rw [get_byte_start s h0]
      rfl
    · by_cases hle : s.sent ≤ s.count
      · have hlt : s.sent - 1 < s.bytes.length := by omega
        rw [get_byte_payload s h0 hle _ (List.getElem?_eq_getElem hlt)]
        rfl
      · by_cases hhi : s.sent = s.count + 1
        · rw [get_byte_hi s hhi]
          rfl
        · by_cases hlo : s.sent = s.count + 2
          · rw [get_byte_lo s hlo]
            rfl
          · by_cases hfin : s.sent = s.count + 3
            · rw [get_byte_fin s hfin]
              rfl
            · rw [get_byte_done s (by omega)]
              rfl

theorem C9_no_out_of_bounds_witness :
    ({ CommandWriter.new with sent := 1, count := 1 } : CommandWriter).bytes.length
        = 32 ∧
    ({ CommandWriter.new with sent := 1, count := 1 } : CommandWriter).count ≤ 32 ∧
    ((∀ i, ({ CommandWriter.new with sent := 1, count := 1 } : CommandWriter).readIndex
        = some i → i < 32) ∧
      (({ CommandWriter.new with sent := 1, count := 1 } : CommandWriter).get_byte).isSome
        = true) :=
  ⟨by decide, by decide, C9_no_out_of_bounds _ (by decide) (by decide)⟩

/-- C10: finalize sets the drain cursor to 0 and recomputes the
checksum over the valid payload prefix; the buffer, the length and the
escape-pending flag are unchanged — a stale escape-pending flag
survives finalize. -/
theorem C10_finalize_frame (s : CommandWriter) :
    s.prep_for_send.sent = 0 ∧ s.prep_for_send.bytes = s.bytes ∧
    s.prep_for_send.count = s.count ∧
    s.prep_for_send.had_escape = s.had_escape ∧
    s.prep_for_send.crc = crc16_x25 (s.bytes.take s.count) :=
  ⟨rfl, rfl, rfl, rfl, rfl⟩

end Monotron
